import Mathlib

/-!
Shallow embedding of `src/parts_scraper.py`, the adaptive product-extraction
core of the spider_web repository, together with theorems settling the frozen
claims about it.

Conventions of the embedding:
  - Python strings are Lean `String`s; all character-level manipulation is done
    structurally over `List Char` so that every definition evaluates by kernel
    reduction on concrete inputs.
  - Library behaviour the module relies on (the `urllib.parse.urljoin` join,
    BeautifulSoup document queries, `json` serialization) is modelled from its
    documented semantics, restricted to the shapes this module exercises; each
    such definition carries a note.  Repository code itself is translated
    line by line.
  - Fallible collaborators (page fetching) are modelled as explicit function
    parameters returning `Option`.
-/

namespace PartsScraper

/- ## String primitives (counterparts of Python str methods) -/

/-- Python str.strip on a character list: drop whitespace at both ends. -/
def trimL (l : List Char) : List Char :=
  ((l.dropWhile Char.isWhitespace).reverse.dropWhile Char.isWhitespace).reverse

/-- Python str.strip. -/
def strTrim (s : String) : String := ⟨trimL s.data⟩

/-- Python str.lower (ASCII-relevant part). -/
def lowerL : List Char → List Char := List.map Char.toLower

/-- Decide whether `needle` is a prefix of the second list. -/
def isPrefixL : List Char → List Char → Bool
  | [], _ => true
  | _ :: _, [] => false
  | a :: as, b :: bs => a = b && isPrefixL as bs

/-- Python substring containment `needle in hay`. -/
def containsL (needle : List Char) : List Char → Bool
  | [] => needle.isEmpty
  | c :: cs => isPrefixL needle (c :: cs) || containsL needle cs

/-- Python `needle in hay` on strings. -/
def strContainsSub (hay needle : String) : Bool := containsL needle.data hay.data

/-- Split a character list at the first occurrence of `sep`; `none` when the
separator does not occur.  Counterpart of Python str.split(sep, 1) guarded by
a containment check. -/
def splitFirstL (sep : Char) : List Char → Option (List Char × List Char)
  | [] => none
  | c :: cs =>
    if c = sep then some ([], cs)
    else match splitFirstL sep cs with
      | none => none
      | some (a, b) => some (c :: a, b)

/-- Python str.split() with no argument: whitespace-separated words, empties
dropped. -/
def wordsL : List Char → List (List Char)
  | [] => []
  | c :: cs =>
    if c.isWhitespace then wordsL cs
    else
      let rest := wordsL cs
      match cs with
      | [] => [[c]]
      | d :: _ =>
        if d.isWhitespace then [c] :: rest
        else
          match rest with
          | [] => [[c]]
          | w :: ws => (c :: w) :: ws

/-- Join word lists with single spaces: Python " ".join(words). -/
def joinSpace : List (List Char) → List Char
  | [] => []
  | [w] => w
  | w :: ws => w ++ ' ' :: joinSpace ws

/-- Python " ".join(s.split()): collapse all whitespace runs to single spaces
and trim. -/
def normalizeWs (s : String) : String := ⟨joinSpace (wordsL s.data)⟩

/-- Python str.isdigit restricted to ASCII digits (the module only ever feeds
it ASCII numerals). -/
def isDigitStr (l : List Char) : Bool := !l.isEmpty && l.all Char.isDigit

/-- Test for at least one decimal digit: Python re.search of a digit class,
restricted to ASCII digits. -/
def hasDigit (l : List Char) : Bool := l.any Char.isDigit

/- ## urljoin

Modelled from the documented behaviour of `urllib.parse.urljoin` for an
absolute http(s) base URL, the only way the module calls it (base is always
the configured `BASE_URL`).  Dot-segment normalization and query/fragment
splitting are omitted: no claim and no input in this development exercises
them. -/

/-- Scheme-character tail scan: remaining scheme characters up to a colon. -/
def isSchemeTail : List Char → Bool
  | [] => false
  | c :: cs =>
    if c = ':' then true
    else (c.isAlpha || c.isDigit || c = '+' || c = '-' || c = '.') && isSchemeTail cs

/-- Does the character list begin with a URL scheme (letter, then scheme
characters, then a colon)? -/
def isSchemeStart : List Char → Bool
  | [] => false
  | c :: cs => c.isAlpha && isSchemeTail cs

/-- Scheme part of an absolute URL: characters before the first colon. -/
def schemeL (base : List Char) : List Char := base.takeWhile (fun c => c ≠ ':')

/-- Characters after the first colon. -/
def afterColonL (base : List Char) : List Char :=
  match splitFirstL ':' base with
  | some (_, rest) => rest
  | none => []

/-- Netloc of an absolute URL of the shape scheme://netloc/path. -/
def netlocL (base : List Char) : List Char :=
  ((afterColonL base).drop 2).takeWhile (fun c => c ≠ '/')

/-- Path of an absolute URL of the shape scheme://netloc/path. -/
def pathOfL (base : List Char) : List Char :=
  ((afterColonL base).drop 2).dropWhile (fun c => c ≠ '/')

/-- Scheme plus netloc, `scheme://netloc`. -/
def schemeNetlocL (base : List Char) : List Char :=
  schemeL base ++ ':' :: '/' :: '/' :: netlocL base

/-- Base path up to and including its last slash (the directory against which
a relative reference is merged); a slash when the base path has none. -/
def dirOfPathL (path : List Char) : List Char :=
  let r := path.reverse.dropWhile (fun c => c ≠ '/')
  if r.isEmpty then ['/'] else r.reverse

/-- urljoin on character lists (see section comment). -/
def urljoinL (base url : List Char) : List Char :=
  if url.isEmpty then base
  else if isSchemeStart url then url
  else if isPrefixL ('/' :: '/' :: []) url then schemeL base ++ ':' :: url
  else if url.headD ' ' = '/' then schemeNetlocL base ++ url
  else schemeNetlocL base ++ dirOfPathL (pathOfL base) ++ url

/-- Python urllib.parse.urljoin as used by the module. -/
def urljoin (base url : String) : String := ⟨urljoinL base.data url.data⟩

/-- A URL is absolute when it carries a scheme. -/
def isAbsoluteUrl (u : String) : Bool := isSchemeStart u.data

/-- Configured site base URL (module constant BASE_URL). -/
def BASE_URL : String := "https://www.zkh.com/"

/- ## JSON values (Python objects produced by json.loads) -/

/-- JSON-compatible tree as produced by Python json.loads.  Numbers are
modelled as integers; no claim exercises float formatting. -/
inductive Json where
  | null : Json
  | jbool : Bool → Json
  | num : Int → Json
  | str : String → Json
  | arr : List Json → Json
  | obj : List (String × Json) → Json

mutual

/-- Python repr of a json.loads value (strings single-quoted). -/
def pyRepr : Json → String
  | .null => "None"
  | .jbool b => if b then "True" else "False"
  | .num n => toString n
  | .str s => "\x27" ++ s ++ "\x27"
  | .arr xs => "[" ++ pyReprArr xs ++ "]"
  | .obj kvs => "\x7b" ++ pyReprObj kvs ++ "\x7d"

def pyReprArr : List Json → String
  | [] => ""
  | [x] => pyRepr x
  | x :: xs => pyRepr x ++ ", " ++ pyReprArr xs

def pyReprObj : List (String × Json) → String
  | [] => ""
  | [(k, v)] => "\x27" ++ k ++ "\x27: " ++ pyRepr v
  | (k, v) :: kvs => "\x27" ++ k ++ "\x27: " ++ pyRepr v ++ ", " ++ pyReprObj kvs

end

/-- Python str() of a json.loads value: the string itself for strings,
otherwise the repr. -/
def pyStr : Json → String
  | .str s => s
  | v => pyRepr v

/-- Python truthiness of a json.loads value. -/
def jtruthy : Json → Bool
  | .null => false
  | .jbool b => b
  | .num n => n != 0
  | .str s => !s.isEmpty
  | .arr xs => !xs.isEmpty
  | .obj kvs => !kvs.isEmpty

/-- Dictionary lookup d.get(k): `none` when the key is absent (json.loads
dictionaries carry no duplicate keys). -/
def jget (d : List (String × Json)) (k : String) : Option Json :=
  (d.find? (fun p => p.1 == k)).map (fun p => p.2)

/-- Python d.get(k) viewed as a value: a json null stands for Python None,
which is also what d.get returns for an absent key. -/
def pyGet (d : List (String × Json)) (k : String) : Json :=
  match jget d k with
  | some v => v
  | none => .null

/-- Python `a or b`: the left operand when truthy, otherwise the right. -/
def pyOr (a b : Json) : Json := if jtruthy a then a else b

mutual

/-- Source `traverse` (lines 166-173), restricted to the dict nodes it
yields: every dict-like node of the tree, parent before children, values in
insertion order. -/
def traverseDicts : Json → List (List (String × Json))
  | .obj kvs => kvs :: traverseDictsKVs kvs
  | .arr xs => traverseDictsArr xs
  | _ => []

def traverseDictsKVs : List (String × Json) → List (List (String × Json))
  | [] => []
  | (_, v) :: rest => traverseDicts v ++ traverseDictsKVs rest

def traverseDictsArr : List Json → List (List (String × Json))
  | [] => []
  | x :: xs => traverseDicts x ++ traverseDictsArr xs

end

/-- Source `pick_first` (lines 176-183): first key whose value is present,
non-None, and has non-empty stripped string form. -/
def pick_first (d : List (String × Json)) : List String → String
  | [] => ""
  | k :: ks =>
    match jget d k with
    | some .null => pick_first d ks
    | some v =>
      let text := strTrim (pyStr v)
      if text ≠ "" then text else pick_first d ks
    | none => pick_first d ks

/-- Source `normalize_price` (lines 186-194): empty for None, stripped text
kept only when it contains a digit. -/
def normalize_price (raw : Json) : String :=
  match raw with
  | .null => ""
  | v =>
    let text := strTrim (pyStr v)
    if text = "" then ""
    else if hasDigit text.data then text
    else ""

/-- Source price probe (lines 237-242): Python or-chain over the four price
aliases, evaluated on d.get results. -/
def priceChain (item : List (String × Json)) : Json :=
  pyOr (pyGet item ("price"))
    (pyOr (pyGet item ("salePrice"))
      (pyOr (pyGet item ("minPrice")) (pyGet item ("showPrice"))))

/-- Source id-synthesis loop (lines 246-250): first id-like key present whose
stripped string form is all digits yields a /product/(id).html path, built
from the unstripped string form as in the source f-string. -/
def synthHref (item : List (String × Json)) : List String → String
  | [] => ""
  | k :: ks =>
    match jget item k with
    | some v =>
      if isDigitStr (trimL (pyStr v).data) then "/product/" ++ pyStr v ++ ".html"
      else synthHref item ks
    | none => synthHref item ks

/-- One extracted product row (the five listing-page fields of the source
dict). -/
structure Row where
  product_name : String
  product_model_or_SKU : String
  part_description : String
  price : String
  detail_page_url : String

/-- Python any(row.values()) over the five fields in insertion order. -/
def anyValues (r : Row) : Bool :=
  !r.product_name.isEmpty || !r.product_model_or_SKU.isEmpty ||
    !r.part_description.isEmpty || !r.price.isEmpty || !r.detail_page_url.isEmpty

/-- Detail reference of one dict node (lines 243-250): first link alias, the
id-synthesized path as fallback when every link alias is empty. -/
def itemDetailHref (item : List (String × Json)) : String :=
  if pick_first item [("detailUrl"), ("detailPageUrl"), ("url"), ("href"), ("link")] = "" then
    synthHref item [("skuId"), ("itemId"), ("productId"), ("id")]
  else pick_first item [("detailUrl"), ("detailPageUrl"), ("url"), ("href"), ("link")]

/-- Resolved detail URL of one dict node (line 252): the reference joined
against the base when non-empty, the empty string otherwise. -/
def itemDetailUrl (base : String) (item : List (String × Json)) : String :=
  if itemDetailHref item ≠ "" then urljoin base (itemDetailHref item) else ""

/-- The candidate row built from one dict node (lines 234-265). -/
def candidateRow (base : String) (item : List (String × Json)) : Row :=
  { product_name := pick_first item [("productName"), ("skuName"), ("name"), ("title"), ("goodsName"), ("spuName")]
    product_model_or_SKU := pick_first item [("sku"), ("skuNo"), ("skuCode"), ("model"), ("itemCode"), ("materialCode"), ("productCode")]
    part_description := pick_first item [("description"), ("desc"), ("subTitle"), ("brief"), ("sellingPoint")]
    price := normalize_price (priceChain item)
    detail_page_url := itemDetailUrl base item }

/-- Loop body of the embedded-JSON extractor (lines 230-270) acting on one
dict node: state is (candidates so far, seen detail URLs).  The acceptance
test of line 254 reads the same name, sku and resolved URL stored in the
row. -/
def processItem (base : String) (st : List Row × List String)
    (item : List (String × Json)) : List Row × List String :=
  let row := candidateRow base item
  if row.product_name = "" ∧ row.product_model_or_SKU = "" ∧ row.detail_page_url = "" then st
  else if row.detail_page_url ≠ "" ∧ st.2.contains row.detail_page_url = true then st
  else if anyValues row = true then
    (st.1 ++ [row], if row.detail_page_url ≠ "" then row.detail_page_url :: st.2 else st.2)
  else st

/-- Source `extract_products_from_embedded_json` (lines 197-272) from the
point where script blocks have been parsed: the script harvesting and
json.loads stage (library regex and JSON-text parsing, lines 199-227) is
abstracted into the input, the list of successfully parsed payload trees in
document order. -/
def extract_products_from_embedded_json (payloads : List Json) (base : String) : List Row :=
  (payloads.foldl (fun st payload => (traverseDicts payload).foldl (processItem base) st)
    ([], [])).1

/- ## HTML documents and CSS-style queries

Modelled from the documented behaviour of BeautifulSoup on parsed documents.
A document is an element tree; `select` walks it in document (pre-)order.
The selector language is embedded as data covering exactly the selector
shapes the module uses: a tag name, classes, attribute presence and
attribute-substring conditions on a compound, descendant chains, and
comma-separated groups. -/

/-- An HTML node: raw text or an element with a tag name, attributes and
children. -/
inductive Html where
  | text : String → Html
  | elem : String → List (String × String) → List Html → Html

/-- Tag name of a node (empty for text). -/
def tagName : Html → String
  | .text _ => ""
  | .elem n _ _ => n

/-- Attribute list of a node. -/
def attrsOf : Html → List (String × String)
  | .text _ => []
  | .elem _ attrs _ => attrs

/-- Children of a node. -/
def childrenOf : Html → List Html
  | .text _ => []
  | .elem _ _ cs => cs

/-- Attribute lookup on an attribute list. -/
def getAttr (attrs : List (String × String)) (key : String) : Option String :=
  (attrs.find? (fun p => p.1 == key)).map (fun p => p.2)

/-- Class tokens of an attribute list: the whitespace-split class attribute. -/
def classListOf (attrs : List (String × String)) : List String :=
  (wordsL ((getAttr attrs ("class")).getD ("")).data).map (fun w => String.mk w)

mutual

/-- All raw text pieces below a node, document order. -/
def textPieces : Html → List String
  | .text s => [s]
  | .elem _ _ cs => textPiecesList cs

def textPiecesList : List Html → List String
  | [] => []
  | c :: cs => textPieces c ++ textPiecesList cs

end

/-- BeautifulSoup get_text(" ", strip=True): strip each text piece, drop the
ones that become empty, join with single spaces. -/
def getTextSpaceStrip (e : Html) : String :=
  ⟨joinSpace (((textPieces e).map (fun s => trimL s.data)).filter (fun l => !l.isEmpty))⟩

/-- One attribute condition of a compound selector: presence of the key, and
optionally a substring constraint on its value. -/
structure AttrSel where
  key : String
  sub : Option String

/-- One compound selector: optional tag name, required classes, attribute
conditions. -/
structure SimpleSel where
  tag : Option String
  classes : List String
  conds : List AttrSel

/-- A selector: a descendant chain of compound selectors, outermost first. -/
abbrev Selector : Type := List SimpleSel

/-- A selector group: comma-separated alternatives. -/
abbrev SelGroup : Type := List Selector

/-- Compound selector c (class), written .c in CSS. -/
def selCls (c : String) : SimpleSel := ⟨none, [c], []⟩

/-- Compound selector for a bare tag name. -/
def selTag (t : String) : SimpleSel := ⟨some t, [], []⟩

/-- Compound selector tag.class. -/
def selTagCls (t c : String) : SimpleSel := ⟨some t, [c], []⟩

/-- Compound selector tag[attr]. -/
def selTagAttr (t a : String) : SimpleSel := ⟨some t, [], [⟨a, none⟩]⟩

/-- Compound selector tag[attr*=v]. -/
def selTagAttrSub (t a v : String) : SimpleSel := ⟨some t, [], [⟨a, some v⟩]⟩

/-- Compound selector [attr]. -/
def selAttr (a : String) : SimpleSel := ⟨none, [], [⟨a, none⟩]⟩

/-- Compound selector [attr*=v]. -/
def selAttrSub (a v : String) : SimpleSel := ⟨none, [], [⟨a, some v⟩]⟩

/-- Does an element match one compound selector?  Text nodes never match. -/
def matchesSimple (e : Html) (s : SimpleSel) : Bool :=
  match e with
  | .text _ => false
  | .elem n attrs _ =>
    (match s.tag with
     | none => true
     | some t => n == t) &&
    s.classes.all (fun c => (classListOf attrs).contains c) &&
    s.conds.all (fun a =>
      match getAttr attrs a.key with
      | none => false
      | some v =>
        match a.sub with
        | none => true
        | some sub => containsL sub.data v.data)

/-- Match the ancestor part of a descendant chain against the ancestor stack
(nearest ancestor first), selectors listed innermost first. -/
def ancMatch : List SimpleSel → List Html → Bool
  | [], _ => true
  | _ :: _, [] => false
  | s :: rest, a :: as => (matchesSimple a s && ancMatch rest as) || ancMatch (s :: rest) as

/-- Match a full descendant chain at an element with the given ancestor
stack (nearest first). -/
def selMatches (chain : Selector) (e : Html) (ancs : List Html) : Bool :=
  match chain.reverse with
  | [] => false
  | selfSel :: rest => matchesSimple e selfSel && ancMatch rest ancs

mutual

/-- Collect, in document order, every element (with its ancestor stack,
nearest first) satisfying the predicate. -/
def collectAnc (p : Html → List Html → Bool) (ancs : List Html) : Html → List (Html × List Html)
  | .text _ => []
  | .elem n attrs cs =>
    let self := Html.elem n attrs cs
    (if p self ancs then [(self, ancs)] else []) ++ collectAncList p (self :: ancs) cs

def collectAncList (p : Html → List Html → Bool) (ancs : List Html) : List Html → List (Html × List Html)
  | [] => []
  | c :: cs => collectAnc p ancs c ++ collectAncList p ancs cs

end

/-- BeautifulSoup soup.select on the whole document: all elements matching
some alternative of the group, document order. -/
def selectDoc (group : SelGroup) (doc : Html) : List Html :=
  (collectAnc (fun e ancs => group.any (fun chain => selMatches chain e ancs)) [] doc).map
    (fun q => q.1)

/-- BeautifulSoup element.select: matching descendants of the element (the
element itself excluded). -/
def selectIn (group : SelGroup) (e : Html) : List Html :=
  (collectAncList (fun x ancs => group.any (fun chain => selMatches chain x ancs)) [e]
    (childrenOf e)).map (fun q => q.1)

/-- BeautifulSoup element.select_one: first matching descendant. -/
def selectOneIn (e : Html) (sel : Selector) : Option Html :=
  (selectIn [sel] e).head?

/-- BeautifulSoup element.find_all(names): descendants whose tag name is in
the list, document order. -/
def findAllIn (names : List String) (e : Html) : List Html :=
  (collectAncList (fun x _ => names.contains (tagName x)) [e] (childrenOf e)).map
    (fun q => q.1)

/- Serialization of a node, modelled from BeautifulSoup str(tag): attributes
double-quoted in stored order; entity escaping omitted — the module only
compares serializations as dedup fingerprints. -/
mutual

/-- Render a node back to markup text (see comment above). -/
def renderH : Html → String
  | .text s => s
  | .elem n attrs cs =>
    "<" ++ n ++ renderAttrs attrs ++ ">" ++ renderList cs ++ "</" ++ n ++ ">"

def renderAttrs : List (String × String) → String
  | [] => ""
  | (k, v) :: rest => " " ++ k ++ "=\x22" ++ v ++ "\x22" ++ renderAttrs rest

def renderList : List Html → String
  | [] => ""
  | c :: cs => renderH c ++ renderList cs

end

/- ## Field Matcher (source lines 80-97) -/

/-- Source `first_text` (lines 80-87): try selectors in order; for the first
with a matching node whose normalized text is non-empty, return that text;
otherwise the empty string. -/
def first_text (element : Html) : List Selector → String
  | [] => ""
  | sel :: rest =>
    match selectOneIn element sel with
    | some node =>
      if normalizeWs (getTextSpaceStrip node) ≠ "" then normalizeWs (getTextSpaceStrip node)
      else first_text element rest
    | none => first_text element rest

/-- Source `first_attr` (lines 90-97): try selectors in order; for the first
with a matching node carrying the attribute with non-empty stripped value,
return that value; otherwise the empty string. -/
def first_attr (element : Html) (selectors : List Selector) (attr : String) : String :=
  match selectors with
  | [] => ""
  | sel :: rest =>
    match selectOneIn element sel with
    | some node =>
      match getAttr (attrsOf node) attr with
      | some v =>
        if strTrim v ≠ "" then strTrim v else first_attr element rest attr
      | none => first_attr element rest attr
    | none => first_attr element rest attr

/- ## Card Locator (source lines 100-133) -/

/-- Source candidate_selectors list (lines 101-111), in source order. -/
def candidate_selectors : List Selector :=
  [ [selCls ("product-item")],
    [selCls ("goods-item")],
    [selCls ("sku-item")],
    [selCls ("list-item")],
    [selCls ("product-list"), selTag ("li")],
    [selCls ("goods-list"), selTag ("li")],
    [selTagAttr ("li") ("data-sku")],
    [selTagAttr ("div") ("data-sku")],
    [selTag ("article")] ]

/-- Product-like path tokens of the link-harvesting fallback (line 121). -/
def productTokens : List String := ["/product", "/goods", "/item", "/sku", "/detail"]

/-- Fallback link harvesting (lines 118-124): every anchor with an href
containing a product-like token, replaced by its nearest li/div/article
ancestor when one exists. -/
def fallback_cards (doc : Html) : List Html :=
  (collectAnc (fun e _ => matchesSimple e (selTagAttr ("a") ("href"))) [] doc).filterMap
    (fun q =>
      let href := ((getAttr (attrsOf q.1) ("href")).getD (""))
      if productTokens.any (fun tok => containsL tok.data (lowerL href.data)) then
        some (((q.2.find? (fun a => ["li", "div", "article"].contains (tagName a)))).getD q.1)
      else none)

/-- Fallback dedup (lines 126-133): keep the first card for every distinct
220-character serialization prefix. -/
def dedupCards (cards : List Html) : List Html :=
  (cards.foldl
    (fun (st : List Html × List String) item =>
      let marker : String := ⟨(renderH item).data.take 220⟩
      if st.2.contains marker then st else (st.1 ++ [item], marker :: st.2))
    ([], [])).1

/-- Source `find_product_cards` (lines 100-133): full match set of the first
candidate selector with at least one match; otherwise deduplicated harvested
link containers. -/
def find_product_cards (doc : Html) : List Html :=
  match (candidate_selectors.map (fun sel => selectDoc [sel] doc)).find?
      (fun cards => !cards.isEmpty) with
  | some cards => cards
  | none => dedupCards (fallback_cards doc)

/- ## Card Field Extractor (source lines 136-163) -/

/-- Detail-link selector cascade of `parse_product_from_card` (line 153). -/
def detail_link_selectors : List Selector :=
  [ [selTagCls ("a") ("product-link")],
    [selTagCls ("a") ("goods-link")],
    [selTagAttrSub ("a") ("href") ("product")],
    [selTagAttrSub ("a") ("href") ("item")],
    [selTagAttrSub ("a") ("href") ("detail")],
    [selTagAttr ("a") ("href")] ]

/-- Source `parse_product_from_card` (lines 136-163). -/
def parse_product_from_card (card : Html) (base_url : String) : Row :=
  let product_name := first_text card
    [ [selCls ("product-name")], [selCls ("goods-name")], [selCls ("title")],
      [selTag ("h3")], [selTag ("h2")], [selTagAttr ("a") ("title")], [selTag ("a")] ]
  let skuText := first_text card
    [ [selCls ("product-model")], [selCls ("sku")], [selCls ("model")],
      [selCls ("item-code")], [selCls ("code")], [selAttr ("data-sku")],
      [selAttrSub ("class") ("sku")] ]
  let sku := if skuText ≠ "" then skuText else ((getAttr (attrsOf card) ("data-sku")).getD (""))
  let part_description := first_text card
    [ [selCls ("description")], [selCls ("desc")], [selCls ("product-desc")],
      [selCls ("sub-title")], [selTag ("p")] ]
  let price := first_text card
    [ [selCls ("price")], [selCls ("product-price")], [selCls ("goods-price")],
      [selAttrSub ("class") ("price")] ]
  let detail_href := first_attr card detail_link_selectors ("href")
  { product_name := product_name
    product_model_or_SKU := sku
    part_description := part_description
    price := price
    detail_page_url := urljoin base_url detail_href }

/- ## Detail Spec Extractor (source lines 275-304) -/

/-- Specification tables are ordered key-value lists with unique keys. -/
abbrev Specs : Type := List (String × String)

/-- Python dict assignment specs[key] = value: overwrite in place when the
key exists, append otherwise. -/
def specsInsert (sp : Specs) (key value : String) : Specs :=
  if sp.any (fun p => p.1 == key) then
    sp.map (fun p => if p.1 == key then (key, value) else p)
  else sp ++ [(key, value)]

/-- Python dict lookup on a spec table. -/
def lookupSpec (sp : Specs) (key : String) : Option String :=
  (sp.find? (fun p => p.1 == key)).map (fun p => p.2)

/-- Step 1 of `extract_detail_specs` (lines 278-284): table rows with at
least two cells, first cell text as key, second as value, empties skipped. -/
def tableStep (doc : Html) (sp0 : Specs) : Specs :=
  (selectDoc [[selTag ("table"), selTag ("tr")]] doc).foldl
    (fun sp row =>
      match findAllIn ["th", "td"] row with
      | c0 :: c1 :: _ =>
        if getTextSpaceStrip c0 ≠ "" ∧ getTextSpaceStrip c1 ≠ "" then
          specsInsert sp (getTextSpaceStrip c0) (getTextSpaceStrip c1)
        else sp
      | _ => sp)
    sp0

/-- Step 2 of `extract_detail_specs` (lines 286-293): definition lists, dt
paired with dd at the same position, extra entries ignored, empties skipped. -/
def dlStep (doc : Html) (sp0 : Specs) : Specs :=
  (selectDoc [[selTag ("dl")]] doc).foldl
    (fun sp dl =>
      ((findAllIn ["dt"] dl).zip (findAllIn ["dd"] dl)).foldl
        (fun sp2 q =>
          if getTextSpaceStrip q.1 ≠ "" ∧ getTextSpaceStrip q.2 ≠ "" then
            specsInsert sp2 (getTextSpaceStrip q.1) (getTextSpaceStrip q.2)
          else sp2)
        sp)
    sp0

/-- Step 3 of `extract_detail_specs` (lines 295-302): list items inside a
specification container whose text contains a colon, split at the first
colon, both sides stripped, empties skipped. -/
def liStep (doc : Html) (sp0 : Specs) : Specs :=
  (selectDoc
      [ [selCls ("spec"), selTag ("li")], [selCls ("specs"), selTag ("li")],
        [selCls ("product-spec"), selTag ("li")], [selCls ("param"), selTag ("li")] ]
      doc).foldl
    (fun sp li =>
      match splitFirstL ':' (getTextSpaceStrip li).data with
      | some (a, b) =>
        if (⟨trimL a⟩ : String) ≠ "" ∧ (⟨trimL b⟩ : String) ≠ "" then
          specsInsert sp ⟨trimL a⟩ ⟨trimL b⟩
        else sp
      | none => sp)
    sp0

/-- Source `extract_detail_specs` (lines 275-304): the three steps in fixed
order, later steps overwriting identical keys. -/
def extract_detail_specs (doc : Html) : Specs :=
  liStep doc (dlStep doc (tableStep doc []))

/- ## Orchestrator (source lines 307-340) -/

/-- Minimal JSON string escaping (quote and backslash; other escapes are not
exercised by any claim). -/
def jsonEscapeL : List Char → List Char
  | [] => []
  | c :: cs =>
    if c = '\x22' || c = '\\' then '\\' :: c :: jsonEscapeL cs
    else c :: jsonEscapeL cs

/-- JSON string literal for a key or value. -/
def jsonQuote (s : String) : String := "\x22" ++ ⟨jsonEscapeL s.data⟩ ++ "\x22"

/-- Python json.dumps of a string-to-string dict (ensure_ascii=False),
modelled from its documented output format. -/
def jsonDumps (sp : Specs) : String :=
  "\x7b" ++ String.intercalate (", ") (sp.map (fun p => jsonQuote p.1 ++ ": " ++ jsonQuote p.2)) ++ "\x7d"

/-- A fetched page as the core consumes it: the parsed document, and the
successfully parsed JSON payloads of its script blocks (the script scanning
and json.loads stage of lines 199-227, abstracted as in
`extract_products_from_embedded_json`). -/
structure Page where
  doc : Html
  payloads : List Json

/-- A finished record: the five listing fields plus the serialized spec
table. -/
structure RowOut extends Row where
  detailed_specs : String

/-- The per-candidate body of the orchestrator loop (lines 326-338): keep a
candidate without detail URL with literal empty-object specs; otherwise fetch
the detail page and serialize its extracted specs, an empty dict when the
fetch yields nothing. -/
def attachDetailSpecs (fetch : String → Option Page) (product : Row) : RowOut :=
  if product.detail_page_url = "" then { toRow := product, detailed_specs := "\x7b\x7d" }
  else
    match fetch product.detail_page_url with
    | some dp => { toRow := product, detailed_specs := jsonDumps (extract_detail_specs dp.doc) }
    | none => { toRow := product, detailed_specs := jsonDumps [] }

/-- Source `scrape_category` (lines 307-340).  The fetch collaborator is an
explicit parameter; `none` covers both a failed fetch and empty page text
(the falsy check of line 309). -/
def scrape_category (fetch : String → Option Page) (category_url : String) : List RowOut :=
  match fetch category_url with
  | none => []
  | some page =>
    let cards := find_product_cards page.doc
    let rows :=
      if !cards.isEmpty then cards.map (fun card => parse_product_from_card card BASE_URL)
      else extract_products_from_embedded_json page.payloads BASE_URL
    rows.map (attachDetailSpecs fetch)


/- ## Auxiliary notions used by the verification -/

/-- Value of one locator of the field matcher: the normalized text of its
first matching node, empty when nothing matches. -/
def textAtSel (element : Html) (sel : Selector) : String :=
  match selectOneIn element sel with
  | some node => normalizeWs (getTextSpaceStrip node)
  | none => ""

/-- Invariant of the embedded-extractor loop state: every emitted non-empty
detail URL is recorded in the seen set, and no two emitted rows share a
non-empty detail URL. -/
def DedupInv (st : List Row × List String) : Prop :=
  (∀ r ∈ st.1, r.detail_page_url ≠ "" → st.2.contains r.detail_page_url = true) ∧
  List.Pairwise (fun r1 r2 => r1.detail_page_url = r2.detail_page_url → r1.detail_page_url = "") st.1

/- ## Fixtures used by witnesses and concrete parts of the claims -/

/-- C1 probe node: the price alias is present but empty (falsy), a later
alias carries a digit. -/
def itemC1 : List (String × Json) :=
  [("name", Json.str ("A")), ("price", Json.str ("")), ("salePrice", Json.str ("99"))]

/-- Modelled from the claim wording of C1 (not from the source): the raw
price is the value of the first alias key that is present in the node, kept
only when it contains a digit. -/
def claimedPriceC1 (item : List (String × Json)) : String :=
  match (["price", "salePrice", "minPrice", "showPrice"].find?
      (fun k => (jget item k).isSome)).bind (jget item) with
  | none => ""
  | some v => if hasDigit (strTrim (pyStr v)).data then strTrim (pyStr v) else ""

/-- The row the embedded extractor produces from itemC1. -/
def rowC1 : Row := ⟨"A", "", "", "99", ""⟩

/-- Payload blocks resolving to the same detail URL. -/
def payloadA : Json := .obj [("name", .str ("A")), ("url", .str ("/product/1.html"))]

/-- Second block with the same resolved URL. -/
def payloadB : Json := .obj [("name", .str ("B")), ("url", .str ("/product/1.html"))]

/-- Candidates without any detail URL. -/
def payloadN1 : Json := .obj [("name", .str ("C"))]

/-- Second candidate without a detail URL, identical fields. -/
def payloadN2 : Json := .obj [("name", .str ("C"))]

/-- A listing card matched by the product-item selector. -/
def card1 : Html := .elem ("div") [("class", "product-item")]
  [ .elem ("h3") [] [.text ("Bolt A")],
    .elem ("span") [("class", "sku")] [.text (" B-1 ")],
    .elem ("a") [("href", "/d/1")] [.text ("view")] ]

/-- A listing document containing card1. -/
def doc1 : Html := .elem ("div") [] [card1]

/-- A document with no selector hits but one product-like anchor inside a
list item: exercises the link-harvesting fallback. -/
def doc2 : Html := .elem ("div") []
  [ .elem ("ul") [] [ .elem ("li") [] [ .elem ("a") [("href", "/product/9.html")] [.text ("x")] ] ] ]

/-- Detail page with a Weight table row and a conflicting Weight list item
inside a specification container. -/
def weightDoc : Html := .elem ("div") []
  [ .elem ("table") [] [ .elem ("tr") []
      [ .elem ("th") [] [.text ("Weight")], .elem ("td") [] [.text ("2kg")] ] ],
    .elem ("ul") [("class", "spec")] [ .elem ("li") [] [.text ("Weight: 3kg")] ] ]

/-- Detail page with one definition-list pair. -/
def detailDoc2 : Html := .elem ("div") []
  [ .elem ("dl") [] [ .elem ("dt") [] [.text ("Mat")], .elem ("dd") [] [.text ("Steel")] ] ]

/-- Element with two headline children, both non-empty: matcher priority
fixture. -/
def cardFT : Html := .elem ("div") []
  [ .elem ("h3") [] [.text ("  A  name ")], .elem ("h2") [] [.text ("Bname")] ]

/-- Document with no elements at all. -/
def emptyDoc : Html := .elem ("html") [] []

/-- Listing page around doc1. -/
def listPage : Page := ⟨doc1, []⟩

/-- Detail page around detailDoc2. -/
def detailPage : Page := ⟨detailDoc2, []⟩

/-- Fetch collaborator serving the card listing and one detail page. -/
def fetch1 : String → Option Page := fun u =>
  if u == "LIST" then some listPage
  else if u == "https://www.zkh.com/d/1" then some detailPage
  else none

/-- Listing page with no cards and one embedded payload. -/
def listPage2 : Page := ⟨emptyDoc, [.obj [("name", .str ("E")), ("skuId", .num 7)]]⟩

/-- Fetch collaborator serving only the embedded-payload listing. -/
def fetch2 : String → Option Page := fun u => if u == "LIST" then some listPage2 else none

/-- Page for the specs-always-present scenario: no cards; one candidate
without detail URL, one whose detail fetch fails. -/
def pageC8 : Page :=
  ⟨emptyDoc, [.obj [("name", .str ("N"))], .obj [("name", .str ("U")), ("url", .str ("/d/9"))]]⟩

/-- Fetch collaborator for pageC8: detail fetches all fail. -/
def fetchC8 : String → Option Page := fun u => if u == "LIST" then some pageC8 else none

/-- First output row of the pageC8 scenario. -/
def rowOutN : RowOut := ⟨⟨"N", "", "", "", ""⟩, "\x7b\x7d"⟩

/-- Fetch collaborator that always fails. -/
def fetchNone : String → Option Page := fun _ => none

/-- Page with no cards and no parseable payloads. -/
def pageEmpty : Page := ⟨emptyDoc, []⟩

/-- Fetch collaborator serving only the empty page. -/
def fetchEmpty : String → Option Page := fun u => if u == "LIST" then some pageEmpty else none

/- ## Helper lemmas -/

theorem urljoin_base_absolute (u : String) : isAbsoluteUrl (urljoin BASE_URL u) = true := by
  show isSchemeStart (urljoinL BASE_URL.data u.data) = true
  unfold urljoinL
  split
  · rfl
  · split
    · assumption
    · split
      · rfl
      · split
        · rfl
        · rfl

theorem urljoin_empty (base : String) : urljoin base ("") = base := rfl

theorem urljoin_base_ne_empty (u : String) : urljoin BASE_URL u ≠ "" := by
  intro h
  have habs := urljoin_base_absolute u
  rw [h] at habs
  exact absurd habs (by decide)

theorem mem_processItem_fst (base : String) (st : List Row × List String)
    (item : List (String × Json)) (r : Row) (hr : r ∈ (processItem base st item).1) :
    r ∈ st.1 ∨ r = candidateRow base item := by
  simp only [processItem] at hr
  split at hr
  · exact Or.inl hr
  split at hr
  · exact Or.inl hr
  split at hr
  · rcases List.mem_append.mp hr with h | h
    · exact Or.inl h
    · exact Or.inr (List.mem_singleton.mp h)
  · exact Or.inl hr



theorem mem_foldl_processItem (base : String) :
    ∀ (items : List (List (String × Json))) (st : List Row × List String) (r : Row),
      r ∈ (items.foldl (processItem base) st).1 →
      r ∈ st.1 ∨ ∃ item, item ∈ items ∧ r = candidateRow base item := by
  intro items
  induction items with
  | nil => intro st r hr; exact Or.inl hr
  | cons i is ih =>
    intro st r hr
    rcases ih (processItem base st i) r hr with h | h
    · rcases mem_processItem_fst base st i r h with h2 | h2
      · exact Or.inl h2
      · exact Or.inr ⟨i, List.mem_cons_self i is, h2⟩
    · rcases h with ⟨item, hmem, heq⟩
      exact Or.inr ⟨item, List.mem_cons_of_mem i hmem, heq⟩

theorem mem_extract_origin (base : String) :
    ∀ (payloads : List Json) (st : List Row × List String) (r : Row),
      r ∈ (payloads.foldl (fun st2 payload => (traverseDicts payload).foldl (processItem base) st2) st).1 →
      r ∈ st.1 ∨ ∃ item, item ∈ payloads.flatMap traverseDicts ∧ r = candidateRow base item := by
  intro payloads
  induction payloads with
  | nil => intro st r hr; exact Or.inl hr
  | cons p ps ih =>
    intro st r hr
    rcases ih _ r hr with h | h
    · rcases mem_foldl_processItem base (traverseDicts p) st r h with h2 | h2
      · exact Or.inl h2
      · rcases h2 with ⟨item, hmem, heq⟩
        refine Or.inr ⟨item, ?_, heq⟩
        simp [List.mem_flatMap]
        exact Or.inl hmem
    · rcases h with ⟨item, hmem, heq⟩
      refine Or.inr ⟨item, ?_, heq⟩
      simp [List.mem_flatMap] at hmem ⊢
      exact Or.inr hmem

theorem mem_extract_row (base : String) (payloads : List Json) (r : Row)
    (hr : r ∈ extract_products_from_embedded_json payloads base) :
    ∃ item, item ∈ payloads.flatMap traverseDicts ∧ r = candidateRow base item := by
  rcases mem_extract_origin base payloads ([], []) r hr with h | h
  · exact absurd h (List.not_mem_nil r)
  · exact h


theorem processItem_dedupInv (base : String) (st : List Row × List String)
    (item : List (String × Json)) (h : DedupInv st) : DedupInv (processItem base st item) := by
  simp only [processItem]
  split
  · exact h
  split
  · exact h
  split
  case isTrue hne hdup _ =>
    constructor
    · intro r hr hrne
      rcases List.mem_append.mp hr with h1 | h1
      · have := h.1 r h1 hrne
        have hmem : r.detail_page_url ∈ st.2 := by simpa using this
        split
        · simp [List.contains_cons, hmem]
        · exact this
      · have heq : r = candidateRow base item := List.mem_singleton.mp h1
        subst heq
        split
        case isTrue h2 => simp [List.contains_cons]
        case isFalse h2 => exact absurd hrne h2
    · rw [List.pairwise_append]
      refine ⟨h.2, List.pairwise_singleton _ _, ?_⟩
      intro r1 hr1 r2 hr2 hequrl
      have heq : r2 = candidateRow base item := List.mem_singleton.mp hr2
      subst heq
      by_cases hr1e : r1.detail_page_url = ""
      · exact hr1e
      · have hcont := h.1 r1 hr1 hr1e
        push_neg at hdup
        by_cases hce : (candidateRow base item).detail_page_url = ""
        · rw [hequrl]; exact hce
        · have := hdup hce
          rw [← hequrl] at this
          rw [hcont] at this
          exact absurd this (by simp)
  · exact h



theorem foldl_dedupInv {α : Type} (f : (List Row × List String) → α → (List Row × List String))
    (hf : ∀ st a, DedupInv st → DedupInv (f st a)) :
    ∀ (l : List α) (st : List Row × List String), DedupInv st → DedupInv (l.foldl f st) := by
  intro l
  induction l with
  | nil => intro st h; exact h
  | cons a as ih => intro st h; exact ih (f st a) (hf st a h)

theorem extract_pairwise_urls (payloads : List Json) (base : String) :
    List.Pairwise (fun r1 r2 => r1.detail_page_url = r2.detail_page_url → r1.detail_page_url = "")
      (extract_products_from_embedded_json payloads base) := by
  have hinv : DedupInv ((payloads.foldl
      (fun st2 payload => (traverseDicts payload).foldl (processItem base) st2) ([], []))) := by
    refine foldl_dedupInv _ ?_ payloads ([], []) ?_
    · intro st p hst
      exact foldl_dedupInv _ (fun st2 i h2 => processItem_dedupInv base st2 i h2) _ st hst
    · exact ⟨fun r hr => absurd hr (List.not_mem_nil r), List.Pairwise.nil⟩
  exact hinv.2

-- spec table preservation
theorem lookupSpec_isSome_iff (sp : Specs) (k : String) :
    (lookupSpec sp k).isSome ↔ ∃ p ∈ sp, (p.1 == k) = true := by
  simp [lookupSpec, List.find?_isSome]

theorem lookupSpec_isSome_insert (sp : Specs) (key value k : String)
    (h : (lookupSpec sp k).isSome) : (lookupSpec (specsInsert sp key value) k).isSome := by
  rw [lookupSpec_isSome_iff] at h ⊢
  rcases h with ⟨p, hmem, hp⟩
  unfold specsInsert
  split
  · refine ⟨if p.1 == key then (key, value) else p, List.mem_map_of_mem _ hmem, ?_⟩
    split
    case isTrue hk =>
      have : p.1 = key := by simpa using hk
      simpa [← this] using hp
    case isFalse hk => exact hp
  · exact ⟨p, List.mem_append_left _ hmem, hp⟩

theorem foldl_lookup_isSome {α : Type} (g : Specs → α → Specs)
    (hg : ∀ sp a k, (lookupSpec sp k).isSome → (lookupSpec (g sp a) k).isSome) :
    ∀ (l : List α) (sp : Specs) (k : String),
      (lookupSpec sp k).isSome → (lookupSpec (l.foldl g sp) k).isSome := by
  intro l
  induction l with
  | nil => intro sp k h; exact h
  | cons a as ih => intro sp k h; exact ih (g sp a) k (hg sp a k h)

theorem tableStep_preserves (doc : Html) (sp : Specs) (k : String)
    (h : (lookupSpec sp k).isSome) : (lookupSpec (tableStep doc sp) k).isSome := by
  unfold tableStep
  refine foldl_lookup_isSome _ ?_ _ sp k h
  intro sp2 row k2 h2
  split
  · split
    · exact lookupSpec_isSome_insert _ _ _ _ h2
    · exact h2
  · exact h2

theorem dlStep_preserves (doc : Html) (sp : Specs) (k : String)
    (h : (lookupSpec sp k).isSome) : (lookupSpec (dlStep doc sp) k).isSome := by
  unfold dlStep
  refine foldl_lookup_isSome _ ?_ _ sp k h
  intro sp2 dl k2 h2
  refine foldl_lookup_isSome _ ?_ _ sp2 k2 h2
  intro sp3 q k3 h3
  split
  · exact lookupSpec_isSome_insert _ _ _ _ h3
  · exact h3

theorem liStep_preserves (doc : Html) (sp : Specs) (k : String)
    (h : (lookupSpec sp k).isSome) : (lookupSpec (liStep doc sp) k).isSome := by
  unfold liStep
  refine foldl_lookup_isSome _ ?_ _ sp k h
  intro sp2 li k2 h2
  split
  · split
    · exact lookupSpec_isSome_insert _ _ _ _ h2
    · exact h2
  · exact h2



theorem find?_map_first {α : Type} (f : α → List Html) :
    ∀ (pre : List α) (sel : α) (post : List α),
      (∀ s ∈ pre, f s = []) → f sel ≠ [] →
      (((pre ++ sel :: post).map f).find? (fun cards => !cards.isEmpty)) = some (f sel) := by
  intro pre
  induction pre with
  | nil =>
    intro sel post _ hsel
    simp only [List.nil_append, List.map_cons]
    rw [List.find?_cons_of_pos]
    simp [List.isEmpty_iff, hsel]
  | cons a as ih =>
    intro sel post hpre hsel
    simp only [List.cons_append, List.map_cons]
    rw [List.find?_cons_of_neg]
    · exact ih sel post (fun s hs => hpre s (List.mem_cons_of_mem a hs)) hsel
    · simp [List.isEmpty_iff, hpre a (List.mem_cons_self a as)]

theorem find?_map_none {α : Type} (f : α → List Html) :
    ∀ (l : List α), (∀ s ∈ l, f s = []) →
      ((l.map f).find? (fun cards => !cards.isEmpty)) = none := by
  intro l
  induction l with
  | nil => intro _; rfl
  | cons a as ih =>
    intro hall
    simp only [List.map_cons]
    rw [List.find?_cons_of_neg]
    · exact ih (fun s hs => hall s (List.mem_cons_of_mem a hs))
    · simp [List.isEmpty_iff, hall a (List.mem_cons_self a as)]

-- C6 core
theorem find_product_cards_first (doc : Html) (pre : List Selector) (sel : Selector) (post : List Selector)
    (hsplit : candidate_selectors = pre ++ sel :: post)
    (hpre : ∀ s ∈ pre, selectDoc [s] doc = [])
    (hsel : selectDoc [sel] doc ≠ []) :
    find_product_cards doc = selectDoc [sel] doc := by
  unfold find_product_cards
  rw [hsplit, find?_map_first (fun s => selectDoc [s] doc) pre sel post hpre hsel]

theorem find_product_cards_fallback (doc : Html)
    (hall : ∀ s ∈ candidate_selectors, selectDoc [s] doc = []) :
    find_product_cards doc = dedupCards (fallback_cards doc) := by
  unfold find_product_cards
  rw [find?_map_none (fun s => selectDoc [s] doc) candidate_selectors hall]


theorem first_text_head (element : Html) (a : Selector) (rest : List Selector)
    (h : textAtSel element a ≠ "") :
    first_text element (a :: rest) = textAtSel element a := by
  cases hs : selectOneIn element a with
  | some node =>
    have h2 : normalizeWs (getTextSpaceStrip node) ≠ "" := by
      unfold textAtSel at h
      rw [hs] at h
      intro hc
      exact h hc
    simp only [first_text, textAtSel, hs]
    rw [if_pos h2]
  | none =>
    unfold textAtSel at h
    rw [hs] at h
    exact absurd (rfl : ("" : String) = "") h

theorem first_text_all_empty (element : Html) :
    ∀ (sels : List Selector), (∀ s ∈ sels, textAtSel element s = "") →
      first_text element sels = "" := by
  intro sels
  induction sels with
  | nil => intro _; rfl
  | cons a rest ih =>
    intro hall
    cases hs : selectOneIn element a with
    | some node =>
      have ha := hall a (List.mem_cons_self a rest)
      unfold textAtSel at ha
      rw [hs] at ha
      have ha2 : normalizeWs (getTextSpaceStrip node) = "" := ha
      simp only [first_text, hs, ha2]
      rw [if_neg (by simp)]
      exact ih (fun s hsm => hall s (List.mem_cons_of_mem a hsm))
    | none =>
      simp only [first_text, hs]
      exact ih (fun s hsm => hall s (List.mem_cons_of_mem a hsm))



theorem candidateRow_url_cases (base : String) (item : List (String × Json)) :
    (candidateRow base item).detail_page_url = "" ∨
      ∃ href, href ≠ "" ∧ (candidateRow base item).detail_page_url = urljoin base href := by
  show itemDetailUrl base item = "" ∨ ∃ href, href ≠ "" ∧ itemDetailUrl base item = urljoin base href
  unfold itemDetailUrl
  split
  case isTrue h => exact Or.inr ⟨_, h, rfl⟩
  case isFalse h => exact Or.inl rfl

theorem candidateRow_price (base : String) (item : List (String × Json)) :
    (candidateRow base item).price = normalize_price (priceChain item) := rfl

-- orchestrator dispatch
theorem scrape_category_cards (fetch : String → Option Page) (url : String) (page : Page)
    (hf : fetch url = some page) (hc : find_product_cards page.doc ≠ []) :
    scrape_category fetch url =
      (find_product_cards page.doc).map
        (fun card => attachDetailSpecs fetch (parse_product_from_card card BASE_URL)) := by
  unfold scrape_category
  rw [hf]
  have : (find_product_cards page.doc).isEmpty = false := by
    simp [List.isEmpty_iff, hc]
  simp only [this, Bool.not_false, if_pos, List.map_map]
  rfl

theorem scrape_category_embedded (fetch : String → Option Page) (url : String) (page : Page)
    (hf : fetch url = some page) (hc : find_product_cards page.doc = []) :
    scrape_category fetch url =
      (extract_products_from_embedded_json page.payloads BASE_URL).map (attachDetailSpecs fetch) := by
  unfold scrape_category
  rw [hf]
  have : (find_product_cards page.doc).isEmpty = true := by
    simp [List.isEmpty_iff, hc]
  simp [this]

theorem scrape_category_none (fetch : String → Option Page) (url : String)
    (hf : fetch url = none) : scrape_category fetch url = [] := by
  unfold scrape_category
  rw [hf]

theorem attachDetailSpecs_dumps (fetch : String → Option Page) (product : Row) :
    ∃ sp : Specs, (attachDetailSpecs fetch product).detailed_specs = jsonDumps sp := by
  unfold attachDetailSpecs
  split
  · exact ⟨[], rfl⟩
  · split
    · exact ⟨_, rfl⟩
    · exact ⟨[], rfl⟩

/- ## Claim theorems -/

/-- Claim C1, counterexample: in the Embedded-State Extractor, for the node
itemC1 whose price key is present with a digitless (empty) value, the claim
demands an empty price field, but the code skips the falsy value and emits
the salePrice value 99. -/
theorem C1_counterexample :
    (extract_products_from_embedded_json [Json.obj itemC1] BASE_URL).map (fun r => r.price) = ["99"] ∧
    claimedPriceC1 itemC1 = "" ∧ ("99" : String) ≠ "" :=
  ⟨rfl, rfl, by decide⟩

/-- Claim C1 as amended: the raw price of every emitted candidate is the
first Python-truthy value of the alias chain price, salePrice, minPrice,
showPrice (a present but falsy alias is passed over), and the value is kept
only when its stripped string form contains a digit, the price field being
empty otherwise. -/
theorem C1_amended_price_truthy_chain :
    (∀ (payloads : List Json) (base : String) (r : Row),
        r ∈ extract_products_from_embedded_json payloads base →
        ∃ item, item ∈ payloads.flatMap traverseDicts ∧
          r.price = normalize_price (priceChain item)) ∧
    (∀ item : List (String × Json), jtruthy (pyGet item ("price")) = false →
        priceChain item =
          pyOr (pyGet item ("salePrice")) (pyOr (pyGet item ("minPrice")) (pyGet item ("showPrice")))) ∧
    (∀ v : Json, hasDigit (strTrim (pyStr v)).data = false → normalize_price v = "") := by
  refine ⟨?_, ?_, ?_⟩
  · intro payloads base r hr
    rcases mem_extract_row base payloads r hr with ⟨item, hmem, heq⟩
    exact ⟨item, hmem, by rw [heq]; exact candidateRow_price base item⟩
  · intro item h
    simp [priceChain, pyOr, h]
  · intro v h
    cases v with
    | null => rfl
    | jbool b =>
      simp only [normalize_price]
      split
      · rfl
      · rw [h]
        rfl
    | num n =>
      simp only [normalize_price]
      split
      · rfl
      · rw [h]
        rfl
    | str s =>
      simp only [normalize_price]
      split
      · rfl
      · rw [h]
        rfl
    | arr xs =>
      simp only [normalize_price]
      split
      · rfl
      · rw [h]
        rfl
    | obj kvs =>
      simp only [normalize_price]
      split
      · rfl
      · rw [h]
        rfl

/-- Witness for C1_amended_price_truthy_chain at concrete inputs. -/
theorem C1_amended_witness :
    (∃ item, item ∈ ([Json.obj itemC1].flatMap traverseDicts) ∧
        rowC1.price = normalize_price (priceChain item)) ∧
    priceChain itemC1 =
      pyOr (pyGet itemC1 ("salePrice")) (pyOr (pyGet itemC1 ("minPrice")) (pyGet itemC1 ("showPrice"))) ∧
    normalize_price (Json.str ("abc")) = "" := by
  refine ⟨C1_amended_price_truthy_chain.1 [Json.obj itemC1] BASE_URL rowC1 ?_,
    C1_amended_price_truthy_chain.2.1 itemC1 (by rfl),
    C1_amended_price_truthy_chain.2.2 (Json.str ("abc")) (by rfl)⟩
  rw [show extract_products_from_embedded_json [Json.obj itemC1] BASE_URL = [rowC1] from rfl]
  exact List.mem_singleton_self rowC1



/-- Claim C2: every detail link, from the card path or the embedded-JSON
path, is resolved through urljoin against the configured base, and every
non-empty emitted detail_page_url is an absolute URL, never a bare relative
path. -/
theorem C2_url_resolution_total :
    (∀ (card : Html) (base : String),
        (parse_product_from_card card base).detail_page_url =
          urljoin base (first_attr card detail_link_selectors ("href"))) ∧
    (∀ card : Html, first_attr card detail_link_selectors ("href") ≠ "" →
        isAbsoluteUrl ((parse_product_from_card card BASE_URL).detail_page_url) = true) ∧
    (∀ (payloads : List Json) (r : Row),
        r ∈ extract_products_from_embedded_json payloads BASE_URL →
        r.detail_page_url ≠ "" → isAbsoluteUrl r.detail_page_url = true) := by
  refine ⟨fun _ _ => rfl, ?_, ?_⟩
  · intro card _
    exact urljoin_base_absolute (first_attr card detail_link_selectors ("href"))
  · intro payloads r hr hne
    rcases mem_extract_row BASE_URL payloads r hr with ⟨item, _, heq⟩
    rcases candidateRow_url_cases BASE_URL item with h | ⟨href, _, hurl⟩
    · rw [heq] at hne; exact absurd h hne
    · rw [heq, hurl]
      exact urljoin_base_absolute href

/-- Witness for C2_url_resolution_total at concrete inputs. -/
theorem C2_witness :
    isAbsoluteUrl ((parse_product_from_card card1 BASE_URL).detail_page_url) = true ∧
    isAbsoluteUrl (candidateRow BASE_URL [("name", Json.str ("A")), ("url", Json.str ("/product/1.html"))]).detail_page_url = true := by
  refine ⟨C2_url_resolution_total.2.1 card1 (by decide), ?_⟩
  refine C2_url_resolution_total.2.2 [payloadA]
    (candidateRow BASE_URL [("name", Json.str ("A")), ("url", Json.str ("/product/1.html"))]) ?_ (by decide)
  rw [show extract_products_from_embedded_json [payloadA] BASE_URL =
      [candidateRow BASE_URL [("name", Json.str ("A")), ("url", Json.str ("/product/1.html"))]] from rfl]
  exact List.mem_singleton_self _

/-- Claim C3: the Detail Spec Extractor applies table rows, definition lists
and colon list items in that fixed order; keys set by an earlier step are
never removed by a later one, only overwritten on collision, and on the
Weight fixture the list item overwrites the table value. -/
theorem C3_detail_spec_layering :
    (∀ (doc : Html) (k : String),
        (lookupSpec (tableStep doc []) k).isSome →
          (lookupSpec (extract_detail_specs doc) k).isSome) ∧
    (∀ (doc : Html) (k : String),
        (lookupSpec (dlStep doc (tableStep doc [])) k).isSome →
          (lookupSpec (extract_detail_specs doc) k).isSome) ∧
    lookupSpec (tableStep weightDoc []) ("Weight") = some ("2kg") ∧
    lookupSpec (extract_detail_specs weightDoc) ("Weight") = some ("3kg") := by
  refine ⟨?_, ?_, rfl, rfl⟩
  · intro doc k h
    exact liStep_preserves doc _ k (dlStep_preserves doc _ k h)
  · intro doc k h
    exact liStep_preserves doc _ k h

/-- Witness for C3_detail_spec_layering at the Weight fixture. -/
theorem C3_witness :
    (lookupSpec (extract_detail_specs weightDoc) ("Weight")).isSome ∧
    (lookupSpec (extract_detail_specs weightDoc) ("Material")).isSome = false :=
  ⟨C3_detail_spec_layering.1 weightDoc ("Weight") (by rfl), by rfl⟩

/-- Claim C4: embedded candidates are deduplicated by resolved detail URL —
no two emitted candidates share a non-empty URL, the first block with a URL
wins, and candidates with empty URLs are never deduplicated against each
other. -/
theorem C4_dedup_by_url :
    (∀ (payloads : List Json) (base : String),
        List.Pairwise
          (fun r1 r2 => r1.detail_page_url = r2.detail_page_url → r1.detail_page_url = "")
          (extract_products_from_embedded_json payloads base)) ∧
    (extract_products_from_embedded_json [payloadA, payloadB] BASE_URL).map
        (fun r => (r.product_name, r.detail_page_url)) =
      [("A", "https://www.zkh.com/product/1.html")] ∧
    (extract_products_from_embedded_json [payloadN1, payloadN2] BASE_URL).length = 2 :=
  ⟨extract_pairwise_urls, rfl, rfl⟩

/-- Witness for C4_dedup_by_url at concrete payloads. -/
theorem C4_witness :
    List.Pairwise
      (fun r1 r2 => r1.detail_page_url = r2.detail_page_url → r1.detail_page_url = "")
      (extract_products_from_embedded_json [payloadA, payloadB] BASE_URL) :=
  C4_dedup_by_url.1 [payloadA, payloadB] BASE_URL



/-- Claim C5: the embedded extractor is invoked exactly when the card
locator finds zero cards — with at least one card the output comes entirely
from the card field extractor; with zero cards it comes from the embedded
extractor. -/
theorem C5_embedded_fallback_trigger (fetch : String → Option Page) (url : String) (page : Page)
    (hf : fetch url = some page) :
    (find_product_cards page.doc ≠ [] →
        scrape_category fetch url =
          (find_product_cards page.doc).map
            (fun card => attachDetailSpecs fetch (parse_product_from_card card BASE_URL))) ∧
    (find_product_cards page.doc = [] →
        scrape_category fetch url =
          (extract_products_from_embedded_json page.payloads BASE_URL).map
            (attachDetailSpecs fetch)) :=
  ⟨fun hc => scrape_category_cards fetch url page hf hc,
   fun hc => scrape_category_embedded fetch url page hf hc⟩

/-- Witness for C5_embedded_fallback_trigger: one fixture with a card, one
without. -/
theorem C5_witness :
    scrape_category fetch1 ("LIST") =
      (find_product_cards listPage.doc).map
        (fun card => attachDetailSpecs fetch1 (parse_product_from_card card BASE_URL)) ∧
    scrape_category fetch2 ("LIST") =
      (extract_products_from_embedded_json listPage2.payloads BASE_URL).map
        (attachDetailSpecs fetch2) := by
  constructor
  · refine (C5_embedded_fallback_trigger fetch1 ("LIST") listPage rfl).1 ?_
    rw [show find_product_cards listPage.doc = [card1] from rfl]
    exact List.cons_ne_nil card1 []
  · exact (C5_embedded_fallback_trigger fetch2 ("LIST") listPage2 rfl).2 rfl

/-- Claim C6: the card locator returns the full match set of the first
structural selector with at least one hit, never merging selectors, and only
when every selector misses does it fall back to deduplicated link
harvesting. -/
theorem C6_card_locator_cascade :
    (∀ (doc : Html) (pre : List Selector) (sel : Selector) (post : List Selector),
        candidate_selectors = pre ++ sel :: post →
        (∀ s ∈ pre, selectDoc [s] doc = []) →
        selectDoc [sel] doc ≠ [] →
        find_product_cards doc = selectDoc [sel] doc) ∧
    (∀ doc : Html, (∀ s ∈ candidate_selectors, selectDoc [s] doc = []) →
        find_product_cards doc = dedupCards (fallback_cards doc)) :=
  ⟨find_product_cards_first, find_product_cards_fallback⟩

/-- Witness for C6_card_locator_cascade: a selector hit on doc1 and the
harvesting fallback on doc2. -/
theorem C6_witness :
    find_product_cards doc1 = selectDoc [[selCls ("product-item")]] doc1 ∧
    find_product_cards doc2 = dedupCards (fallback_cards doc2) := by
  constructor
  · refine C6_card_locator_cascade.1 doc1 [] [selCls ("product-item")]
      [ [selCls ("goods-item")], [selCls ("sku-item")], [selCls ("list-item")],
        [selCls ("product-list"), selTag ("li")], [selCls ("goods-list"), selTag ("li")],
        [selTagAttr ("li") ("data-sku")], [selTagAttr ("div") ("data-sku")],
        [selTag ("article")] ] rfl (fun s hs => absurd hs (List.not_mem_nil s)) ?_
    rw [show selectDoc [[selCls ("product-item")]] doc1 = [card1] from rfl]
    exact List.cons_ne_nil card1 []
  · refine C6_card_locator_cascade.2 doc2 ?_
    intro s hs
    fin_cases hs <;> rfl

/-- Claim C7: the field matcher returns the normalized text of the first
locator yielding a non-empty result — A before B when both match — and the
empty string when no locator yields a non-empty result. -/
theorem C7_field_matcher_first_nonempty :
    (∀ (element : Html) (a : Selector) (rest : List Selector),
        textAtSel element a ≠ "" → first_text element (a :: rest) = textAtSel element a) ∧
    (∀ (element : Html) (a b : Selector),
        textAtSel element a ≠ "" → textAtSel element b ≠ "" →
        first_text element [a, b] = textAtSel element a) ∧
    (∀ (element : Html) (sels : List Selector),
        (∀ s ∈ sels, textAtSel element s = "") → first_text element sels = "") :=
  ⟨first_text_head, fun el a b ha _ => first_text_head el a [b] ha, first_text_all_empty⟩

/-- Witness for C7_field_matcher_first_nonempty on the two-headline fixture. -/
theorem C7_witness :
    first_text cardFT [[selTag ("h3")], [selTag ("h2")]] = textAtSel cardFT [selTag ("h3")] ∧
    first_text cardFT [[selTag ("h4")]] = "" := by
  constructor
  · exact C7_field_matcher_first_nonempty.2.1 cardFT [selTag ("h3")] [selTag ("h2")]
      (by decide) (by decide)
  · refine C7_field_matcher_first_nonempty.2.2 cardFT [[selTag ("h4")]] ?_
    intro s hs
    fin_cases hs
    rfl

/-- Claim C8: every emitted record's detailed_specs is a serialized JSON
object — a candidate with an empty detail URL is kept with the empty object,
and a failing detail fetch likewise yields the empty object. -/
theorem C8_specs_always_present :
    (∀ (fetch : String → Option Page) (url : String) (r : RowOut),
        r ∈ scrape_category fetch url → ∃ sp : Specs, r.detailed_specs = jsonDumps sp) ∧
    (scrape_category fetchC8 ("LIST")).map (fun r => r.detailed_specs) = ["\x7b\x7d", "\x7b\x7d"] ∧
    (scrape_category fetchC8 ("LIST")).length = 2 := by
  refine ⟨?_, rfl, rfl⟩
  intro fetch url r hr
  cases hf : fetch url with
  | none =>
    rw [scrape_category_none fetch url hf] at hr
    exact absurd hr (List.not_mem_nil r)
  | some page =>
    simp only [scrape_category, hf] at hr
    rcases List.mem_map.mp hr with ⟨p, _, heq⟩
    rw [← heq]
    exact attachDetailSpecs_dumps fetch p

/-- Witness for C8_specs_always_present at the first pageC8 record. -/
theorem C8_witness : ∃ sp : Specs, rowOutN.detailed_specs = jsonDumps sp := by
  refine C8_specs_always_present.1 fetchC8 ("LIST") rowOutN ?_
  rw [show scrape_category fetchC8 ("LIST") =
      [rowOutN, ⟨⟨"U", "", "", "", "https://www.zkh.com/d/9"⟩, "\x7b\x7d"⟩] from rfl]
  exact List.mem_cons_self rowOutN _

/-- Claim C9: a listing page yielding no content — failed fetch, or markup
with no cards and no parseable embedded JSON — produces an empty record
sequence; the embedding is total, so no input is fatal. -/
theorem C9_empty_page_empty_output :
    (∀ (fetch : String → Option Page) (url : String),
        fetch url = none → scrape_category fetch url = []) ∧
    (∀ (fetch : String → Option Page) (url : String) (page : Page),
        fetch url = some page → find_product_cards page.doc = [] → page.payloads = [] →
        scrape_category fetch url = []) := by
  refine ⟨scrape_category_none, ?_⟩
  intro fetch url page hf hc hp
  rw [scrape_category_embedded fetch url page hf hc, hp]
  rfl

/-- Witness for C9_empty_page_empty_output on both failure shapes. -/
theorem C9_witness :
    scrape_category fetchNone ("LIST") = [] ∧ scrape_category fetchEmpty ("LIST") = [] :=
  ⟨C9_empty_page_empty_output.1 fetchNone ("LIST") rfl,
   C9_empty_page_empty_output.2 fetchEmpty ("LIST") pageEmpty rfl rfl rfl⟩

/-- Claim C10: the card field extractor never produces an empty detail URL —
with no matching anchor the empty href joined to the base yields the base
itself, so an empty detail URL can only arise from the embedded path. -/
theorem C10_card_detail_url_never_empty :
    (∀ (card : Html) (base : String),
        first_attr card detail_link_selectors ("href") = "" →
        (parse_product_from_card card base).detail_page_url = base) ∧
    (∀ card : Html, (parse_product_from_card card BASE_URL).detail_page_url ≠ "") := by
  constructor
  · intro card base h
    show urljoin base (first_attr card detail_link_selectors ("href")) = base
    rw [h]
    exact urljoin_empty base
  · intro card
    exact urljoin_base_ne_empty (first_attr card detail_link_selectors ("href"))

/-- Witness for C10_card_detail_url_never_empty on an anchor-free card. -/
theorem C10_witness :
    (parse_product_from_card cardFT BASE_URL).detail_page_url = BASE_URL ∧
    (parse_product_from_card card1 BASE_URL).detail_page_url ≠ "" :=
  ⟨C10_card_detail_url_never_empty.1 cardFT BASE_URL rfl,
   C10_card_detail_url_never_empty.2 card1⟩

end PartsScraper
